import Mathlib

/-!
Verification of the small-network handshake / consensus-certificate core
(`node/src/components/small_network/message.rs`) against its specification.

The file shallowly embeds the Rust source: byte strings are `List (Fin 256)`,
Rust strings are `List Char`, fallible operations return `Except`.  Code that
the repository keeps outside the embedded file (the `crypto` module of the
node crate and the hex codec of `casper-types`) is modelled from the spec; each
such definition carries a doc comment saying so.
-/

/-- A byte string, as produced by `ConnectionId::as_bytes` and carried inside
keys and signatures. -/
abbrev Bytes := List (Fin 256)

/-- Modelled from the spec: the lowercase hex digit for a nibble (the base
encoding used by `casper-types`' `to_hex`, before the checksum case mask). -/
def hexDigitLower (d : Fin 16) : Char :=
  if d.val < 10 then Char.ofNat (48 + d.val) else Char.ofNat (87 + d.val)

/-- Modelled from the spec: hex-digit decoding, case-insensitive, as used by
`from_hex` ("both checksummed and plain-hex senders are accepted"). -/
def hexDigitValue (c : Char) : Option (Fin 16) :=
  if h : 48 ≤ c.toNat ∧ c.toNat ≤ 57 then some ⟨c.toNat - 48, by omega⟩
  else if h : 97 ≤ c.toNat ∧ c.toNat ≤ 102 then some ⟨c.toNat - 87, by omega⟩
  else if h : 65 ≤ c.toNat ∧ c.toNat ≤ 70 then some ⟨c.toNat - 55, by omega⟩
  else none

/-- The two lowercase hex digits of one byte. -/
def byteToHexChars (b : Fin 256) : List Char :=
  [hexDigitLower ⟨b.val / 16, by omega⟩, hexDigitLower ⟨b.val % 16, by omega⟩]

/-- Lowercase hex encoding of a byte string. -/
def bytesToHexChars : Bytes → List Char
  | [] => []
  | b :: bs => byteToHexChars b ++ bytesToHexChars bs

/-- Hex decoding of a character string into bytes; fails on odd length or a
non-hex character.  Accepts both letter cases. -/
def hexCharsToBytes : List Char → Option Bytes
  | [] => some []
  | [_] => none
  | c1 :: c2 :: rest => do
      let h ← hexDigitValue c1
      let l ← hexDigitValue c2
      let bs ← hexCharsToBytes rest
      pure (⟨h.val * 16 + l.val, by omega⟩ :: bs)

/-- Modelled from the spec: "checksummed hex" is "a hex encoding variant using
letter case to embed a checksum".  The exact checksum mask of `casper-types`
is immaterial to every property below; it is modelled as uppercasing the
digits at alternating positions, driven by the Boolean accumulator. -/
def applyChecksumCase : Bool → List Char → List Char
  | _, [] => []
  | b, c :: cs => (if b then c.toUpper else c) :: applyChecksumCase (!b) cs

/-- Rust's `str::to_lowercase`, on the `List Char` model of strings. -/
def strToLower (s : List Char) : List Char := s.map Char.toLower

/-- Modelled from the spec: a public key of the signature primitive, carried
by its byte representation. -/
structure PublicKey where
  bytes : Bytes
deriving DecidableEq

/-- Modelled from the spec: a secret signing key. -/
structure SecretKey where
  bytes : Bytes
deriving DecidableEq

/-- Modelled from the spec: a signature over a byte string; carried by its
byte representation. -/
structure Signature where
  bytes : Bytes
deriving DecidableEq

/-- Decode or verification errors surfaced to the caller. -/
inductive DecodeError where
  | malformedHex
  | missingField
  | wrongShape
deriving DecidableEq

namespace crypto

/-- Modelled from the spec: the error type of `crypto::verify` (the `crypto`
module of the node crate is not part of the embedded file). -/
inductive Error where
  | signatureError
deriving DecidableEq

/-- Modelled from the spec: `crypto::sign(bytes, secret_key, public_key)`.
The signature primitive is an external collaborator; it is idealized as a
deterministic scheme in which the signature bytes determine exactly the byte
string and public key they were created over. -/
def sign (value : Bytes) (_secret_key : SecretKey) (public_key : PublicKey) :
    Signature :=
  ⟨value ++ public_key.bytes⟩

/-- Modelled from the spec: `crypto::verify(bytes, signature, public_key)`,
succeeding exactly when the signature was created over this byte string and
public key. -/
def verify (value : Bytes) (signature : Signature) (public_key : PublicKey) :
    Except Error Unit :=
  if signature.bytes = value ++ public_key.bytes then .ok () else
    .error .signatureError

end crypto

/-- Modelled from the spec: `ConnectionId` (from `counting_format`), an opaque
unique-per-connection byte string exposing `as_bytes`. -/
structure ConnectionId where
  bytes : Bytes
deriving DecidableEq

/-- Source `ConnectionId::as_bytes`. -/
def ConnectionId.as_bytes (c : ConnectionId) : Bytes := c.bytes

/-- Modelled from the spec: `casper_types::ProtocolVersion`, a semantic
version. -/
structure ProtocolVersion where
  major : Nat
  minor : Nat
  patch : Nat
deriving DecidableEq

/-- Source `ProtocolVersion::V1_0_0`. -/
def ProtocolVersion.V1_0_0 : ProtocolVersion := ⟨1, 0, 0⟩

/-- The default protocol version to use in absence of one in the protocol
version field (source: `default_protocol_version`). -/
def default_protocol_version : ProtocolVersion := ProtocolVersion.V1_0_0

/-- A socket address, compared structurally (IPv4 octets and port). -/
structure SocketAddr where
  ip : List (Fin 256)
  port : Nat
deriving DecidableEq

/-- A pair of secret keys used by consensus (source: `ConsensusKeyPair`). -/
structure ConsensusKeyPair where
  secret_key : SecretKey
  public_key : PublicKey

/-- Source `ConsensusKeyPair::sign`: sign a value using this keypair. -/
def ConsensusKeyPair.sign (kp : ConsensusKeyPair) (value : Bytes) : Signature :=
  crypto.sign value kp.secret_key kp.public_key

/-- Certificate used to indicate that the peer is a validator using the
specified public key (source: `ConsensusCertificate`). -/
structure ConsensusCertificate where
  public_key : PublicKey
  signature : Signature
deriving DecidableEq

/-- Source `ConsensusCertificate::create`: creates a new consensus certificate from a
connection ID and key pair. -/
def ConsensusCertificate.create (connection_id : ConnectionId)
    (key_pair : ConsensusKeyPair) : ConsensusCertificate :=
  { public_key := key_pair.public_key
    signature := key_pair.sign connection_id.as_bytes }

/-- Source `ConsensusCertificate::validate`: validates a certificate, returning a
`PublicKey` if valid. -/
def ConsensusCertificate.validate (self : ConsensusCertificate)
    (connection_id : ConnectionId) : Except crypto.Error PublicKey :=
  match crypto.verify connection_id.as_bytes self.signature self.public_key with
  | .ok () => .ok self.public_key
  | .error e => .error e

/-- Modelled from the spec: `Display` of `casper_types::PublicKey` (a pure
rendering of the key; the exact abbreviation used upstream is immaterial). -/
def PublicKey.display (pk : PublicKey) : List Char := bytesToHexChars pk.bytes

/-- Source `Display` of `ConsensusCertificate`: `write!(f, "key:{}", self.public_key)`. -/
def ConsensusCertificate.display (c : ConsensusCertificate) : List Char :=
  ("key:".data) ++ c.public_key.display

/-- Source `casper_types`' `to_hex` for a public key.  Modelled from the spec: the
checksummed (mixed-case) hex encoding of the key's bytes. -/
def PublicKey.to_hex (pk : PublicKey) : List Char :=
  applyChecksumCase true (bytesToHexChars pk.bytes)

/-- Source `casper_types`' `from_hex` for a public key.  Modelled from the spec:
decodes a hex string (either letter case) into key bytes, failing on
malformed hex. -/
def PublicKey.from_hex (s : List Char) : Except DecodeError PublicKey :=
  match hexCharsToBytes s with
  | some bs => .ok ⟨bs⟩
  | none => .error .malformedHex

/-- Source `casper_types`' `to_hex` for a signature, modelled like the key's. -/
def Signature.to_hex (sg : Signature) : List Char :=
  applyChecksumCase true (bytesToHexChars sg.bytes)

/-- Source `casper_types`' `from_hex` for a signature, modelled like the key's. -/
def Signature.from_hex (s : List Char) : Except DecodeError Signature :=
  match hexCharsToBytes s with
  | some bs => .ok ⟨bs⟩
  | none => .error .malformedHex

/-- Human-readable mirror of `ConsensusCertificate` with string fields
(source: `HumanReadableCertificate`). -/
structure HumanReadableCertificate where
  public_key : List Char
  signature : List Char
deriving DecidableEq

/-- Binary mirror of `ConsensusCertificate` with native fields
(source: `NonHumanReadableCertificate`). -/
structure NonHumanReadableCertificate where
  public_key : PublicKey
  signature : Signature
deriving DecidableEq

/-- A serialized certificate: the value handed to the underlying serializer is
one of the two mirror structs, chosen by the serializer's
`is_human_readable` flag. -/
inductive SerializedCertificate where
  | humanReadable (c : HumanReadableCertificate)
  | nonHumanReadable (c : NonHumanReadableCertificate)
deriving DecidableEq

/-- Source `impl Serialize for ConsensusCertificate`: when the serializer is
human-readable, emit the hex-lowercased mirror; otherwise emit the native
mirror. -/
def ConsensusCertificate.serialize (is_human_readable : Bool)
    (c : ConsensusCertificate) : SerializedCertificate :=
  if is_human_readable then
    .humanReadable
      { public_key := strToLower c.public_key.to_hex
        signature := strToLower c.signature.to_hex }
  else
    .nonHumanReadable { public_key := c.public_key, signature := c.signature }

/-- Source `impl Deserialize for ConsensusCertificate`: a human-readable deserializer
reads the string mirror, lowercases each hex field and decodes it with
`from_hex`; a binary deserializer reads the native mirror.  A mirror of the
wrong kind for the deserializer's mode is a shape error. -/
def ConsensusCertificate.deserialize (is_human_readable : Bool)
    (w : SerializedCertificate) : Except DecodeError ConsensusCertificate :=
  match is_human_readable, w with
  | true, .humanReadable hrc => do
      let public_key ← PublicKey.from_hex (strToLower hrc.public_key)
      let signature ← Signature.from_hex (strToLower hrc.signature)
      .ok { public_key, signature }
  | false, .nonHumanReadable nhrc =>
      .ok { public_key := nhrc.public_key, signature := nhrc.signature }
  | _, _ => .error .wrongShape

/-- A classification system for networking messages (source: `MessageKind`). -/
inductive MessageKind where
  | Protocol
  | Consensus
  | DeployGossip
  | AddressGossip
  | DeployTransfer
  | BlockTransfer
  | TrieTransfer
  | Other
deriving DecidableEq

/-- A generic configuration for payload weights (source: `PayloadWeights`). -/
structure PayloadWeights where
  consensus : Nat
  deploy_requests : Nat
deriving DecidableEq

/-- The `Payload` trait: the capability record an application message type
must provide.  `incoming_resource_estimate` defaults to 0 when a concrete
type does not override it, as in the trait's provided method. -/
structure PayloadImpl (P : Type) where
  classify : P → MessageKind
  incoming_resource_estimate : P → PayloadWeights → Nat := fun _ _ => 0

/-- The message envelope (source: `Message<P>`). -/
inductive Message (P : Type) where
  | Handshake (network_name : List Char) (public_addr : SocketAddr)
      (protocol_version : ProtocolVersion)
      (consensus_certificate : Option ConsensusCertificate)
  | Payload (p : P)
deriving DecidableEq

/-- Source `Message::classify`: classifies a message based on its payload. -/
def Message.classify {P : Type} (impl : PayloadImpl P) :
    Message P → MessageKind
  | .Handshake _ _ _ _ => .Protocol
  | .Payload p => impl.classify p

/-- Source `Message::payload_incoming_resource_estimate`: returns the incoming
resource estimate of the payload. -/
def Message.payload_incoming_resource_estimate {P : Type}
    (impl : PayloadImpl P) (m : Message P) (weights : PayloadWeights) : Nat :=
  match m with
  | .Handshake _ _ _ _ => 0
  | .Payload p => impl.incoming_resource_estimate p weights

/-- The decoder-side view of the four named fields of the `Handshake` variant:
each field either present on the wire or absent. -/
structure HandshakeWire where
  network_name : Option (List Char)
  public_addr : Option SocketAddr
  protocol_version : Option ProtocolVersion
  consensus_certificate : Option (Option ConsensusCertificate)
deriving DecidableEq

/-- Field decoding of the `Handshake` variant, following the serde attributes
on the source struct: `network_name` and `public_addr` have no default and
their absence is an error; `protocol_version` carries
`serde(default = "default_protocol_version")`; `consensus_certificate`
carries `serde(default)`, whose default for an `Option` is `None`. -/
def decodeHandshakeFields (P : Type) (w : HandshakeWire) :
    Except DecodeError (Message P) :=
  match w.network_name, w.public_addr with
  | some nn, some pa =>
      .ok (.Handshake nn pa (w.protocol_version.getD default_protocol_version)
        (w.consensus_certificate.getD none))
  | _, _ => .error .missingField

/-- Version 1.0.0 network level message (source: `V1_0_0_Message`). -/
inductive V1_0_0_Message (P : Type) where
  | Handshake (network_name : List Char) (public_address : SocketAddr)
  | Payload (p : P)
deriving DecidableEq

/-- One element of the serialized field sequence of a handshake variant.  The
transport's codec (rmp-serde) writes an enum as its variant index followed by
the sequence of field values; each field kind keeps its own round-tripping
serde representation, abstracted here as one constructor per field type. -/
inductive WireValue where
  | str (s : List Char)
  | sockAddr (a : SocketAddr)
  | version (v : ProtocolVersion)
  | certificate (c : Option HumanReadableCertificate)
deriving DecidableEq

/-- Encoding of a current `Message::Handshake` on the wire: variant index 0,
then the four fields in declaration order; the certificate is emitted in its
human-readable form, as the handshake encoder is human-readable. -/
def encodeHandshakeWire (network_name : List Char) (public_addr : SocketAddr)
    (protocol_version : ProtocolVersion)
    (consensus_certificate : Option ConsensusCertificate) :
    Nat × List WireValue :=
  (0, [.str network_name, .sockAddr public_addr, .version protocol_version,
    .certificate (consensus_certificate.map (fun c =>
      { public_key := strToLower c.public_key.to_hex
        signature := strToLower c.signature.to_hex }))])

/-- Decoding a wire value as a `V1_0_0_Message` handshake: variant index 0
reads the two G1 fields, `network_name` and `public_address`, and ignores any
further elements of the field sequence — the behaviour the source test
`v1_0_0_can_decode_current_handshake` pins down for the rmp decoder.  Payload
variants are outside the scope of the handshake claims and decode to a shape
error here. -/
def decodeV1_0_0Handshake (variant : Nat) (fields : List WireValue) :
    Except DecodeError (V1_0_0_Message Unit) :=
  if variant = 0 then
    match fields with
    | .str nn :: .sockAddr pa :: _ => .ok (.Handshake nn pa)
    | _ => .error .wrongShape
  else
    .error .wrongShape

/-- Two human-readable certificate wire forms differ only in letter case:
lowercasing each field of one yields the same string as lowercasing the
corresponding field of the other. -/
abbrev hrcCaseEquiv (w1 w2 : HumanReadableCertificate) : Prop :=
  strToLower w1.public_key = strToLower w2.public_key ∧
    strToLower w1.signature = strToLower w2.signature

/-- A character string contains no uppercase character. -/
def noUppercaseChars (s : List Char) : Prop := ∀ c ∈ s, c.isUpper = false

theorem hexDigitLower_toLower : ∀ d : Fin 16,
    (hexDigitLower d).toLower = hexDigitLower d := by decide

theorem hexDigitLower_toUpper_toLower : ∀ d : Fin 16,
    ((hexDigitLower d).toUpper).toLower = hexDigitLower d := by decide

theorem hexDigitLower_not_isUpper : ∀ d : Fin 16,
    (hexDigitLower d).isUpper = false := by decide

theorem hexDigitValue_hexDigitLower : ∀ d : Fin 16,
    hexDigitValue (hexDigitLower d) = some d := by decide

theorem mem_bytesToHexChars (bs : Bytes) :
    ∀ c ∈ bytesToHexChars bs, ∃ d, c = hexDigitLower d := by
  induction bs with
  | nil => intro c hc; simp [bytesToHexChars] at hc
  | cons b bs ih =>
      intro c hc
      simp only [bytesToHexChars, byteToHexChars, List.cons_append,
        List.nil_append, List.mem_cons] at hc
      rcases hc with h | h | h
      · exact ⟨_, h⟩
      · exact ⟨_, h⟩
      · exact ih c h

theorem strToLower_applyChecksumCase (l : List Char)
    (hl : ∀ c ∈ l, ∃ d, c = hexDigitLower d) :
    ∀ b, strToLower (applyChecksumCase b l) = l := by
  induction l with
  | nil => intro b; rfl
  | cons c cs ih =>
      intro b
      obtain ⟨d, rfl⟩ := hl _ (List.mem_cons_self _ _)
      have hcs : ∀ x ∈ cs, ∃ d, x = hexDigitLower d :=
        fun x hx => hl x (List.mem_cons_of_mem _ hx)
      cases b
      · simpa [applyChecksumCase, strToLower, hexDigitLower_toLower d]
          using ih hcs true
      · simpa [applyChecksumCase, strToLower, hexDigitLower_toUpper_toLower d]
          using ih hcs false

theorem strToLower_eq_self (l : List Char)
    (h : ∀ c ∈ l, ∃ d, c = hexDigitLower d) : strToLower l = l := by
  induction l with
  | nil => rfl
  | cons c cs ih =>
      obtain ⟨d, rfl⟩ := h _ (List.mem_cons_self _ _)
      have hcs : ∀ x ∈ cs, ∃ d, x = hexDigitLower d :=
        fun x hx => h x (List.mem_cons_of_mem _ hx)
      simp [strToLower, hexDigitLower_toLower d] at ih ⊢
      exact ih hcs

theorem hexCharsToBytes_bytesToHexChars (bs : Bytes) :
    hexCharsToBytes (bytesToHexChars bs) = some bs := by
  induction bs with
  | nil => rfl
  | cons b bs ih =>
      simp only [bytesToHexChars, byteToHexChars, List.cons_append,
        List.nil_append, List.append_eq, List.append_nil]
      simp only [hexCharsToBytes, hexDigitValue_hexDigitLower, ih,
        Option.bind_eq_bind, Option.some_bind, Option.pure_def,
        Option.some.injEq, List.cons.injEq, and_true]
      apply Fin.ext
      simp only [Fin.val_mk]
      omega

theorem strToLower_to_hex_pk (pk : PublicKey) :
    strToLower pk.to_hex = bytesToHexChars pk.bytes :=
  strToLower_applyChecksumCase _ (mem_bytesToHexChars pk.bytes) true

theorem strToLower_to_hex_sig (sg : Signature) :
    strToLower sg.to_hex = bytesToHexChars sg.bytes :=
  strToLower_applyChecksumCase _ (mem_bytesToHexChars sg.bytes) true

theorem from_hex_strToLower_to_hex_pk (pk : PublicKey) :
    PublicKey.from_hex (strToLower (strToLower pk.to_hex)) = .ok pk := by
  rw [strToLower_to_hex_pk,
    strToLower_eq_self _ (mem_bytesToHexChars pk.bytes)]
  simp [PublicKey.from_hex, hexCharsToBytes_bytesToHexChars]

theorem from_hex_strToLower_to_hex_sig (sg : Signature) :
    Signature.from_hex (strToLower (strToLower sg.to_hex)) = .ok sg := by
  rw [strToLower_to_hex_sig,
    strToLower_eq_self _ (mem_bytesToHexChars sg.bytes)]
  simp [Signature.from_hex, hexCharsToBytes_bytesToHexChars]

/-- Claim C1: anti-replay binding — for every key pair and every two
connection identifiers A and B whose byte strings differ, a certificate
produced by `ConsensusCertificate::create` for A fails
`ConsensusCertificate::validate` when checked against B, returning an
error. -/
theorem c1_anti_replay (kp : ConsensusKeyPair) (A B : ConnectionId)
    (h : A.as_bytes ≠ B.as_bytes) :
    ∃ e, (ConsensusCertificate.create A kp).validate B = .error e := by
  refine ⟨crypto.Error.signatureError, ?_⟩
  have hne : ¬(A.as_bytes ++ kp.public_key.bytes =
      B.as_bytes ++ kp.public_key.bytes) :=
    fun hEq => h (List.append_cancel_right hEq)
  simp [ConsensusCertificate.validate, ConsensusCertificate.create,
    ConsensusKeyPair.sign, crypto.sign, crypto.verify, hne]

theorem c1_anti_replay_witness :
    ∃ e, (ConsensusCertificate.create ⟨[0]⟩ ⟨⟨[1]⟩, ⟨[2]⟩⟩).validate ⟨[3]⟩ =
      .error e :=
  c1_anti_replay ⟨⟨[1]⟩, ⟨[2]⟩⟩ ⟨[0]⟩ ⟨[3]⟩ (by decide)

/-- Claim C2: create/validate success round-trip — for every connection
identifier and key pair, `create` yields exactly the certificate holding the
key pair's public key and the signature over the connection identifier's
bytes, and validating that certificate against the same connection
identifier succeeds with the key pair's public key. -/
theorem c2_create_validate_roundtrip (cid : ConnectionId)
    (kp : ConsensusKeyPair) :
    ConsensusCertificate.create cid kp =
      { public_key := kp.public_key
        signature := crypto.sign cid.as_bytes kp.secret_key kp.public_key } ∧
      (ConsensusCertificate.create cid kp).validate cid = .ok kp.public_key := by
  refine ⟨rfl, ?_⟩
  simp [ConsensusCertificate.validate, ConsensusCertificate.create,
    ConsensusKeyPair.sign, crypto.sign, crypto.verify]

/-- Claim C3: for every Handshake envelope and every weight configuration,
`classify` returns `MessageKind::Protocol` and the incoming resource
estimate is 0; for every Payload envelope both operations delegate to the
payload's own implementations. -/
theorem c3_classification (P : Type) (impl : PayloadImpl P)
    (nn : List Char) (pa : SocketAddr) (pv : ProtocolVersion)
    (cc : Option ConsensusCertificate) (w : PayloadWeights) (p : P) :
    Message.classify impl (.Handshake nn pa pv cc) = .Protocol ∧
      Message.payload_incoming_resource_estimate impl
        (.Handshake nn pa pv cc) w = 0 ∧
      Message.classify impl (.Payload p) = impl.classify p ∧
      Message.payload_incoming_resource_estimate impl (.Payload p) w =
        impl.incoming_resource_estimate p w :=
  ⟨rfl, rfl, rfl, rfl⟩

/-- Claim C4: decoding defaults — a handshake wire value missing the
`protocol_version` field decodes to version 1.0.0 and one missing the
`consensus_certificate` field decodes to no certificate; present fields pass
through unchanged (the two defaults are the only silent ones) and a missing
`network_name` or `public_addr` is a decode error, never defaulted. -/
theorem c4_decoding_defaults (w : HandshakeWire) :
    default_protocol_version = ProtocolVersion.V1_0_0 ∧
      (∀ nn pa, w.network_name = some nn → w.public_addr = some pa →
        decodeHandshakeFields Unit w = .ok (.Handshake nn pa
          (w.protocol_version.getD ProtocolVersion.V1_0_0)
          (w.consensus_certificate.getD none))) ∧
      (w.network_name = none ∨ w.public_addr = none →
        decodeHandshakeFields Unit w = .error .missingField) := by
  refine ⟨rfl, ?_, ?_⟩
  · intro nn pa h1 h2
    simp [decodeHandshakeFields, h1, h2, default_protocol_version]
  · intro h
    rcases hx : w.network_name with _ | nn <;>
      rcases hy : w.public_addr with _ | pa <;>
        simp_all [decodeHandshakeFields]

theorem c4_decoding_defaults_witness :
    decodeHandshakeFields Unit ⟨some ['n'], some ⟨[1, 2, 3, 4], 80⟩, none,
        none⟩ =
      .ok (.Handshake ['n'] ⟨[1, 2, 3, 4], 80⟩ ProtocolVersion.V1_0_0 none) :=
  by simpa using
    (c4_decoding_defaults ⟨some ['n'], some ⟨[1, 2, 3, 4], 80⟩, none,
      none⟩).2.1 ['n'] ⟨[1, 2, 3, 4], 80⟩ rfl rfl

/-- Claim C5: lowercase-hex encoding rule — for every certificate, a
human-readable serializer emits the public key and signature as the
lowercased hex encodings of their bytes, containing no uppercase character,
while a non-human-readable serializer emits the native public-key and
signature values. -/
theorem c5_lowercase_hex_encoding (c : ConsensusCertificate) :
    ConsensusCertificate.serialize true c = .humanReadable
        { public_key := bytesToHexChars c.public_key.bytes
          signature := bytesToHexChars c.signature.bytes } ∧
      noUppercaseChars (bytesToHexChars c.public_key.bytes) ∧
      noUppercaseChars (bytesToHexChars c.signature.bytes) ∧
      ConsensusCertificate.serialize false c = .nonHumanReadable
        { public_key := c.public_key, signature := c.signature } := by
  refine ⟨?_, ?_, ?_, rfl⟩
  · simp [ConsensusCertificate.serialize, strToLower_to_hex_pk,
      strToLower_to_hex_sig]
  · intro x hx
    obtain ⟨d, rfl⟩ := mem_bytesToHexChars _ x hx
    exact hexDigitLower_not_isUpper d
  · intro x hx
    obtain ⟨d, rfl⟩ := mem_bytesToHexChars _ x hx
    exact hexDigitLower_not_isUpper d

theorem c5_lowercase_hex_encoding_witness :
    ConsensusCertificate.serialize true ⟨⟨[171]⟩, ⟨[0, 255]⟩⟩ = .humanReadable
        { public_key := bytesToHexChars [171]
          signature := bytesToHexChars [0, 255] } ∧
      noUppercaseChars (bytesToHexChars [171]) ∧
      noUppercaseChars (bytesToHexChars [0, 255]) ∧
      ConsensusCertificate.serialize false ⟨⟨[171]⟩, ⟨[0, 255]⟩⟩ =
        .nonHumanReadable { public_key := ⟨[171]⟩, signature := ⟨[0, 255]⟩ } :=
  c5_lowercase_hex_encoding ⟨⟨[171]⟩, ⟨[0, 255]⟩⟩

/-- Claim C6: hex-case tolerance of decoding — two human-readable certificate
wire forms whose hex fields differ only in letter case deserialize to the
same result: equal certificates on success and the same error on failure. -/
theorem c6_hex_case_tolerance (w1 w2 : HumanReadableCertificate)
    (h : hrcCaseEquiv w1 w2) :
    ConsensusCertificate.deserialize true (.humanReadable w1) =
      ConsensusCertificate.deserialize true (.humanReadable w2) := by
  obtain ⟨h1, h2⟩ := h
  simp [ConsensusCertificate.deserialize, h1, h2]

theorem c6_hex_case_tolerance_witness :
    hrcCaseEquiv ⟨['A', 'b'], ['0', '2', 'c', 'D']⟩
        ⟨['a', 'b'], ['0', '2', 'C', 'd']⟩ ∧
      ConsensusCertificate.deserialize true
          (.humanReadable ⟨['A', 'b'], ['0', '2', 'c', 'D']⟩) =
        ConsensusCertificate.deserialize true
          (.humanReadable ⟨['a', 'b'], ['0', '2', 'C', 'd']⟩) :=
  ⟨by decide, c6_hex_case_tolerance _ _ (by decide)⟩

/-- Claim C7: same-mode round-trip — for every certificate and either
encoding mode (human-readable or binary), serializing and then deserializing
in that same mode yields the original certificate. -/
theorem c7_same_mode_roundtrip (c : ConsensusCertificate) (hr : Bool) :
    ConsensusCertificate.deserialize hr (ConsensusCertificate.serialize hr c) =
      .ok c := by
  cases hr
  · rfl
  · simp only [ConsensusCertificate.serialize, if_true,
      ConsensusCertificate.deserialize, from_hex_strToLower_to_hex_pk,
      from_hex_strToLower_to_hex_sig]
    rfl

/-- Claim C8: forward compatibility with the G1 wire shape — encoding any
current Handshake envelope (version and certificate populated or not) and
decoding the wire value with the G1-shaped reader succeeds, preserves
`network_name` and the socket address exactly, and silently drops the
version and certificate fields. -/
theorem c8_g1_forward_compat (nn : List Char) (pa : SocketAddr)
    (pv : ProtocolVersion) (cc : Option ConsensusCertificate) :
    decodeV1_0_0Handshake (encodeHandshakeWire nn pa pv cc).1
      (encodeHandshakeWire nn pa pv cc).2 = .ok (.Handshake nn pa) :=
  rfl

/-- Claim C9: validation outcome characterization — for every certificate and
connection identifier, `validate` returns `Ok` with the embedded public key
exactly when the cryptographic verification of the signature over the
identifier's bytes succeeds, and otherwise returns exactly the verification
error; there is no other outcome. -/
theorem c9_validate_characterization (c : ConsensusCertificate)
    (cid : ConnectionId) :
    (crypto.verify cid.as_bytes c.signature c.public_key = .ok () ∧
        c.validate cid = .ok c.public_key) ∨
      (crypto.verify cid.as_bytes c.signature c.public_key =
          .error crypto.Error.signatureError ∧
        c.validate cid = .error crypto.Error.signatureError) := by
  by_cases h : c.signature.bytes = cid.as_bytes ++ c.public_key.bytes
  · left
    constructor <;> simp [crypto.verify, ConsensusCertificate.validate, h]
  · right
    constructor <;> simp [crypto.verify, ConsensusCertificate.validate, h]

/-- Claim C10: the textual formatting of a certificate renders only the
public key in the form `key:<public_key>`; it is independent of the
signature, so the signature never appears in log lines built from it. -/
theorem c10_display_only_public_key (c c2 : ConsensusCertificate) :
    ConsensusCertificate.display c = ("key:".data) ++ c.public_key.display ∧
      (c.public_key = c2.public_key →
        ConsensusCertificate.display c = ConsensusCertificate.display c2) := by
  refine ⟨rfl, fun h => ?_⟩
  simp [ConsensusCertificate.display, PublicKey.display, h]

theorem c10_display_only_public_key_witness :
    ConsensusCertificate.display ⟨⟨[1]⟩, ⟨[2]⟩⟩ =
      ConsensusCertificate.display ⟨⟨[1]⟩, ⟨[3]⟩⟩ :=
  (c10_display_only_public_key ⟨⟨[1]⟩, ⟨[2]⟩⟩ ⟨⟨[1]⟩, ⟨[3]⟩⟩).2 rfl
